import Mathlib

/-!
Verification of the vrc_midi_transposer core (pitch transposition and
shared-state coordination) against its specification.

The Rust sources are shallowly embedded below.  MIDI byte buffers are
`List Nat` (each element a `u8` value), the shared runtime state is an
explicit record threaded through the handler functions, and each handler
is a pure Lean function mirroring the body of the corresponding Rust
function from the module tree that `main.rs` actually compiles
(`src/general`, `src/remote`, `src/io`).  The orphaned top-level legacy
files (`src/transpose.rs`, `src/stdin_handler.rs`, `src/osc_listener.rs`,
`src/forwarder.rs`, `src/mqtt_listener.rs`) are not part of the build
(no `mod` declaration reaches them and they reference items absent from
`main.rs`), so they are not embedded.
-/

/-- Rust `i32::clamp` / `Ord::clamp` (the `assert!(min <= max)` precondition
appears as a hypothesis of the theorems that use it):
`if self < min { min } else if self > max { max } else { self }`. -/
def rustClamp (v lo hi : Int) : Int :=
  if v < lo then lo else if v > hi then hi else v

/-- Reinterpretation of an integer as an `i32` by two's-complement wrap:
the release-mode semantics of an overflowing Rust `i32` addition (a debug
build panics there instead; the wrap is the shipped behavior). -/
def i32Wrap (v : Int) : Int :=
  (v + 2147483648) % 4294967296 - 2147483648

/-- `src/general/transpose.rs` `apply_transpose`: in a raw MIDI buffer whose
status high nibble is note-on `0x90` or note-off `0x80` and which has a
second byte, replace the note byte by `clamp(note + semitones, 0, 127)`,
where `note + semitones` is `i32` addition — it wraps when the sum leaves
the `i32` range; all other buffers pass through unchanged.  Buffer elements
are `u8` values (`≤ 255`); the byte read `buf[1] as i32` is the plain cast
of such a value. -/
def apply_transpose (buf : List Nat) (semitones : Int) : List Nat :=
  match buf with
  | [] => []
  | b0 :: rest =>
    let status := b0 &&& 0xF0
    if status = 0x80 ∨ status = 0x90 then
      match rest with
      | [] => b0 :: rest
      | b1 :: rest2 =>
        b0 :: (rustClamp (i32Wrap ((b1 : Int) + semitones)) 0 127).toNat :: rest2
    else b0 :: rest

/-- `src/general/transpose.rs` `clamp_transpose` helper. -/
def clamp_transpose (value : Int) (lo hi : Int) : Int :=
  rustClamp value lo hi

theorem rustClamp_mem (v lo hi : Int) (h : lo ≤ hi) :
    lo ≤ rustClamp v lo hi ∧ rustClamp v lo hi ≤ hi := by
  unfold rustClamp
  split_ifs with h1 h2 <;> omega

theorem rustClamp_eq_self (v lo hi : Int) (h1 : lo ≤ v) (h2 : v ≤ hi) :
    rustClamp v lo hi = v := by
  unfold rustClamp
  split_ifs <;> omega

theorem i32Wrap_eq_self (v : Int) (h1 : -2147483648 ≤ v) (h2 : v ≤ 2147483647) :
    i32Wrap v = v := by
  unfold i32Wrap
  omega

/-- **C1 (amended).** For every buffer whose first byte has high nibble
`0x9` or `0x8` and which has a second byte, and every integer semitone
offset `s` for which the `i32` sum `n + s` does not overflow,
`apply_transpose` replaces the second byte (the note number `n`) by
`clamp(n + s, 0, 127)` — a value in `[0, 127]` — and leaves every other
byte and the buffer length unchanged.  The original claim's "every integer
semitone offset" is refuted by `apply_transpose_overflow_counterexample`:
at an offset within 255 of `i32::MAX` the sum wraps and the byte clamps to
0 instead. -/
theorem apply_transpose_note_message (b0 b1 : Nat) (rest : List Nat) (s : Int)
    (hstat : b0 &&& 0xF0 = 0x90 ∨ b0 &&& 0xF0 = 0x80)
    (hfit : -2147483648 ≤ (b1 : Int) + s ∧ (b1 : Int) + s ≤ 2147483647) :
    apply_transpose (b0 :: b1 :: rest) s
        = b0 :: (rustClamp ((b1 : Int) + s) 0 127).toNat :: rest
      ∧ (rustClamp ((b1 : Int) + s) 0 127).toNat ≤ 127
      ∧ (apply_transpose (b0 :: b1 :: rest) s).length = (b0 :: b1 :: rest).length := by
  have hc : (rustClamp ((b1 : Int) + s) 0 127).toNat ≤ 127 := by
    have := rustClamp_mem ((b1 : Int) + s) 0 127 (by omega)
    omega
  have hif : (b0 &&& 0xF0 = 0x80 ∨ b0 &&& 0xF0 = 0x90) := hstat.symm
  have hwrap : i32Wrap ((b1 : Int) + s) = (b1 : Int) + s :=
    i32Wrap_eq_self ((b1 : Int) + s) hfit.1 hfit.2
  refine ⟨?_, hc, ?_⟩
  · simp only [apply_transpose, if_pos hif, hwrap]
  · simp only [apply_transpose, if_pos hif, List.length_cons]

theorem apply_transpose_note_message_witness :
    ((0x90 : Nat) &&& 0xF0 = 0x90 ∨ (0x90 : Nat) &&& 0xF0 = 0x80)
      ∧ (-2147483648 ≤ ((60 : Nat) : Int) + 5 ∧ ((60 : Nat) : Int) + 5 ≤ 2147483647)
      ∧ (apply_transpose [0x90, 60, 100] 5
            = 0x90 :: (rustClamp ((60 : Int) + 5) 0 127).toNat :: [100]
          ∧ (rustClamp ((60 : Int) + 5) 0 127).toNat ≤ 127
          ∧ (apply_transpose [0x90, 60, 100] 5).length = ([0x90, 60, 100] : List Nat).length) :=
  ⟨Or.inl (by decide), ⟨by decide, by decide⟩,
   apply_transpose_note_message 0x90 60 [100] 5 (Or.inl (by decide)) ⟨by decide, by decide⟩⟩

/-- At offset `2^31 - 60` (a valid `i32`) the `i32` sum `60 + s` overflows:
the release build wraps it to `-2^31` and the note byte clamps to `0`, not
to `clamp(60 + s, 0, 127) = 127` — so the original C1, quantified over
every integer offset, fails on the note-on message `[0x90, 60, 100]`. -/
theorem apply_transpose_overflow_counterexample :
    ((2147483588 : Int) ≤ 2147483647)
      ∧ apply_transpose [0x90, 60, 100] 2147483588 = [0x90, 0, 100]
      ∧ rustClamp ((60 : Int) + 2147483588) 0 127 = 127
      ∧ apply_transpose [0x90, 60, 100] 2147483588 ≠ [0x90, 127, 100] := by
  refine ⟨by decide, by decide, by decide, by decide⟩

/-- **C9.** For every buffer whose first byte's high nibble is neither `0x9`
nor `0x8`, and for every empty or single-byte buffer, `apply_transpose` is
the identity for every semitone offset. -/
theorem apply_transpose_identity (buf : List Nat) (s : Int)
    (h : buf.length ≤ 1
         ∨ ∀ b0, buf.head? = some b0 → b0 &&& 0xF0 ≠ 0x90 ∧ b0 &&& 0xF0 ≠ 0x80) :
    apply_transpose buf s = buf := by
  match buf with
  | [] => rfl
  | [b0] =>
    simp only [apply_transpose]
    split <;> rfl
  | b0 :: b1 :: rest =>
    rcases h with h | h
    · simp at h
    · have hb0 := h b0 (by rfl)
      simp only [apply_transpose]
      rw [if_neg]
      intro hc
      rcases hc with hc | hc
      · exact hb0.2 hc
      · exact hb0.1 hc

theorem apply_transpose_identity_witness :
    (([0xE0, 0, 64] : List Nat).length ≤ 1
       ∨ ∀ b0, ([0xE0, 0, 64] : List Nat).head? = some b0
           → b0 &&& 0xF0 ≠ 0x90 ∧ b0 &&& 0xF0 ≠ 0x80)
      ∧ apply_transpose [0xE0, 0, 64] 7 = [0xE0, 0, 64] :=
  ⟨Or.inr (by decide), apply_transpose_identity [0xE0, 0, 64] 7 (Or.inr (by decide))⟩

/-- **C10.** After `apply_transpose` on a note-on/note-off buffer with a
second byte, that second byte is at most 127 for every offset; in
particular, on a malformed buffer whose note byte (a `u8`, so at most 255)
exceeds 127, offset 0 is not the identity: the note byte is rewritten down
to 127 (at offset 0 the `i32` sum of a byte never overflows). -/
theorem apply_transpose_clamps_malformed (b0 b1 : Nat) (rest : List Nat) (s : Int)
    (hstat : b0 &&& 0xF0 = 0x90 ∨ b0 &&& 0xF0 = 0x80) :
    (∀ m, (apply_transpose (b0 :: b1 :: rest) s).get? 1 = some m → m ≤ 127)
      ∧ (b1 > 127 → b1 ≤ 255 →
          apply_transpose (b0 :: b1 :: rest) 0 = b0 :: 127 :: rest
            ∧ apply_transpose (b0 :: b1 :: rest) 0 ≠ b0 :: b1 :: rest) := by
  have hif : (b0 &&& 0xF0 = 0x80 ∨ b0 &&& 0xF0 = 0x90) := hstat.symm
  have heq : ∀ t, apply_transpose (b0 :: b1 :: rest) t
      = b0 :: (rustClamp (i32Wrap ((b1 : Int) + t)) 0 127).toNat :: rest := by
    intro t
    simp only [apply_transpose, if_pos hif]
  constructor
  · intro m hm
    rw [heq s] at hm
    have hm2 : (rustClamp (i32Wrap ((b1 : Int) + s)) 0 127).toNat = m := by
      simpa using hm
    have := rustClamp_mem (i32Wrap ((b1 : Int) + s)) 0 127 (by omega)
    omega
  · intro hmal hbyte
    have hwrap : i32Wrap ((b1 : Int) + 0) = (b1 : Int) + 0 :=
      i32Wrap_eq_self ((b1 : Int) + 0) (by omega) (by omega)
    have h127 : (rustClamp ((b1 : Int) + 0) 0 127).toNat = 127 := by
      unfold rustClamp
      split_ifs <;> omega
    rw [heq 0, hwrap, h127]
    refine ⟨rfl, ?_⟩
    intro hc
    simp only [List.cons.injEq] at hc
    omega

theorem apply_transpose_clamps_malformed_witness :
    ((0x90 : Nat) &&& 0xF0 = 0x90 ∨ (0x90 : Nat) &&& 0xF0 = 0x80)
      ∧ ((∀ m, (apply_transpose [0x90, 200, 10] 0).get? 1 = some m → m ≤ 127)
          ∧ ((200 : Nat) > 127 → (200 : Nat) ≤ 255 →
              apply_transpose [0x90, 200, 10] 0 = 0x90 :: 127 :: [10]
                ∧ apply_transpose [0x90, 200, 10] 0 ≠ 0x90 :: 200 :: [10])) :=
  ⟨Or.inl (by decide), apply_transpose_clamps_malformed 0x90 200 [10] 0 (Or.inl (by decide))⟩

/-- `main.rs` `TransposeConfig` (fields are `i8` in the source; embedded as
integers, range facts are irrelevant to the claims). -/
structure TransposeConfig where
  min : Int
  max : Int

/-- The process-wide atomics of `main.rs`, gathered into one record:
`TRANSPOSE_SEMITONES`, `EXIT_FLAG`, `DEBUG_ENABLED`, `OSC_SENDING_ENABLED`,
`OSC_SEND_ORIGINAL`, `MQTT_ENABLED`. -/
structure AppState where
  transpose : Int
  exitFlag : Bool
  debugEnabled : Bool
  oscSendingEnabled : Bool
  oscSendOriginal : Bool
  mqttEnabled : Bool
deriving DecidableEq

/-- `main.rs` `set_transpose_semitones`: clamp `value` to the configured
`[min, max]`, store it into `TRANSPOSE_SEMITONES`, and return the stored
value (the clamping notice printed when `value != clamped` has no state
effect). -/
def set_transpose_semitones (cfg : TransposeConfig) (value : Int) (st : AppState) :
    AppState × Int :=
  let clamped := rustClamp value cfg.min cfg.max
  ({ st with transpose := clamped }, clamped)

/-- **C2.** For every integer `v`, `set_transpose_semitones v` stores and
returns a value within the configured `[min, max]`; if `v` is already in
range the returned value is `v`; and the stored transpose offset right after
the call equals the returned value. -/
theorem set_transpose_semitones_spec (cfg : TransposeConfig) (st : AppState) (v : Int)
    (h : cfg.min ≤ cfg.max) :
    cfg.min ≤ (set_transpose_semitones cfg v st).2
      ∧ (set_transpose_semitones cfg v st).2 ≤ cfg.max
      ∧ (cfg.min ≤ v → v ≤ cfg.max → (set_transpose_semitones cfg v st).2 = v)
      ∧ (set_transpose_semitones cfg v st).1.transpose = (set_transpose_semitones cfg v st).2 := by
  have hmem := rustClamp_mem v cfg.min cfg.max h
  refine ⟨hmem.1, hmem.2, ?_, rfl⟩
  intro h1 h2
  exact rustClamp_eq_self v cfg.min cfg.max h1 h2

theorem set_transpose_semitones_spec_witness :
    ((-24 : Int) ≤ 24)
      ∧ (((-24 : Int) ≤ (set_transpose_semitones ⟨-24, 24⟩ 7
            ⟨0, false, false, false, true, true⟩).2)
        ∧ (set_transpose_semitones ⟨-24, 24⟩ 7 ⟨0, false, false, false, true, true⟩).2 ≤ 24
        ∧ ((-24 : Int) ≤ 7 → (7 : Int) ≤ 24
            → (set_transpose_semitones ⟨-24, 24⟩ 7 ⟨0, false, false, false, true, true⟩).2 = 7)
        ∧ (set_transpose_semitones ⟨-24, 24⟩ 7 ⟨0, false, false, false, true, true⟩).1.transpose
            = (set_transpose_semitones ⟨-24, 24⟩ 7 ⟨0, false, false, false, true, true⟩).2) :=
  ⟨by decide,
   set_transpose_semitones_spec ⟨-24, 24⟩ ⟨0, false, false, false, true, true⟩ 7 (by decide)⟩

/-- The MIDI input callback of `main.rs::run`: always forward the raw bytes
to the Forwarder channel `tx`; additionally enqueue a copy to the
"original" relay channel exactly when `OSC_SENDING_ENABLED` and
`OSC_SEND_ORIGINAL` both hold.  Returned as
(message sent to the forwarder queue, optional message sent to the
original-stream relay queue). -/
def midiInputCallback (st : AppState) (message : List Nat) :
    List Nat × Option (List Nat) :=
  (message,
   if st.oscSendingEnabled && st.oscSendOriginal then some message else none)

/-- One iteration of `src/general/forwarder.rs::spawn_forwarder` on a dequeued
message: empty messages are skipped (`none`); otherwise the message is
transposed with the current shared offset, sent to the MIDI output, and
enqueued to the "transposed" relay channel exactly when the channel was
supplied (`hasOscTx`, `Some(osc_transposed_tx)` in `main.rs`) and
`OSC_SENDING_ENABLED && !OSC_SEND_ORIGINAL`.  Returned as
(bytes written to the output device, optional bytes sent to the
transposed-stream relay queue). -/
def forwarderStep (st : AppState) (hasOscTx : Bool) (msg : List Nat) :
    Option (List Nat × Option (List Nat)) :=
  if msg = [] then none
  else
    let outMsg := apply_transpose msg st.transpose
    some (outMsg,
      if hasOscTx && (st.oscSendingEnabled && !st.oscSendOriginal)
      then some outMsg else none)

/-- **C5.** For every incoming MIDI event, a copy of the raw bytes goes to the
original-stream relay queue iff relay-enabled AND send-original both hold at
that moment; and for every message the Forwarder processes (with the
transposed relay channel attached, as in `main.rs`), the transposed bytes go
to the transposed-stream relay queue iff relay-enabled holds AND
send-original does not. -/
theorem relay_queue_gating (st : AppState) (m : List Nat) (hm : m ≠ []) :
    ((midiInputCallback st m).1 = m
      ∧ ((midiInputCallback st m).2 = some m
            ↔ (st.oscSendingEnabled = true ∧ st.oscSendOriginal = true)))
      ∧ (forwarderStep st true m
           = some (apply_transpose m st.transpose,
               if st.oscSendingEnabled && !st.oscSendOriginal
               then some (apply_transpose m st.transpose) else none)
          ∧ ((forwarderStep st true m).map (fun p => p.2 = some (apply_transpose m st.transpose))
               = some (st.oscSendingEnabled = true ∧ st.oscSendOriginal = false))) := by
  refine ⟨⟨rfl, ?_⟩, ?_, ?_⟩
  · unfold midiInputCallback
    cases h1 : st.oscSendingEnabled <;> cases h2 : st.oscSendOriginal <;> simp
  · unfold forwarderStep
    rw [if_neg hm]
    simp
  · unfold forwarderStep
    rw [if_neg hm]
    simp only [Option.map_some]
    cases h1 : st.oscSendingEnabled <;> cases h2 : st.oscSendOriginal <;> simp

theorem relay_queue_gating_witness :
    (([0x90, 60, 100] : List Nat) ≠ [])
      ∧ (((midiInputCallback ⟨0, false, false, true, true, true⟩ [0x90, 60, 100]).1
            = [0x90, 60, 100]
          ∧ ((midiInputCallback ⟨0, false, false, true, true, true⟩ [0x90, 60, 100]).2
                = some [0x90, 60, 100]
              ↔ ((true : Bool) = true ∧ (true : Bool) = true)))
        ∧ (forwarderStep ⟨0, false, false, true, true, true⟩ true [0x90, 60, 100]
             = some (apply_transpose [0x90, 60, 100] 0,
                 if (true : Bool) && !(true : Bool)
                 then some (apply_transpose [0x90, 60, 100] 0) else none)
            ∧ ((forwarderStep ⟨0, false, false, true, true, true⟩ true [0x90, 60, 100]).map
                  (fun p => p.2 = some (apply_transpose [0x90, 60, 100] 0))
                = some ((true : Bool) = true ∧ (true : Bool) = false)))) :=
  ⟨by decide, relay_queue_gating ⟨0, false, false, true, true, true⟩ [0x90, 60, 100] (by decide)⟩

/-- `src/remote/osc_sender.rs` `NOTE_NAMES`. -/
def NOTE_NAMES : List String :=
  ["C", "C#", "D", "D#", "E", "F"]
    ++ ["F#", "G", "G#", "A", "A#", "B"]

/-- `src/remote/osc_sender.rs` `midi_note_to_name`: 12-tone chromatic name
with octave `note / 12 - 1` (`u8` division, then the subtraction in `i32`). -/
def midi_note_to_name (note_number : Nat) : String :=
  if note_number > 127 then "INVALID"
  else NOTE_NAMES.getD (note_number % 12) "" ++ toString ((note_number / 12 : Int) - 1)

/-- `src/remote/osc_sender.rs` `note_name_for_osc`: replace `#` by `SHARP`. -/
def note_name_for_osc (note_name : String) : String :=
  note_name.replace "#" "SHARP"

/-- `src/remote/osc_sender.rs` `MidiMessageForOsc` (fields are `u8`). -/
structure MidiMessageForOsc where
  status : Nat
  data1 : Nat
  data2 : Nat
  data3 : Nat

/-- `MidiMessageForOsc::new`: `None` on an empty buffer, otherwise the first
four bytes with `0` defaults. -/
def MidiMessageForOsc.ofRaw (raw : List Nat) : Option MidiMessageForOsc :=
  match raw with
  | [] => none
  | b0 :: rest =>
    some ⟨b0, rest.getD 0 0, rest.getD 1 0, rest.getD 2 0⟩

/-- The payload of an outgoing OSC message: `rosc::OscType::Int` or
`rosc::OscType::Float`.  Float payloads are embedded as exact rationals (see
`process_midi_message` for why this is faithful here). -/
inductive OscVal where
  | int (v : Int)
  | float (v : Rat)
deriving DecidableEq

/-- The `key_states: HashMap<String, i32>` of `OscSender`, embedded by its
lookup function; `ksInsert` is `HashMap::insert`. -/
def KeyStates := String → Option Int

def ksInsert (ks : KeyStates) (key : String) (v : Int) : KeyStates :=
  fun n => if n = key then some v else ks n

/-- Rust `f32::round`: round to the nearest integer, ties away from zero. -/
def roundAway (q : Rat) : Int :=
  if 0 ≤ q then ⌊q + 1 / 2⌋ else -⌊-q + 1 / 2⌋

/-- `src/remote/osc_sender.rs` `OscSender::process_midi_message`, returning
the updated `key_states` and the list of OSC messages sent (address, value).

The arithmetic of the pitch-bend branch is done in `f32` in the source; it
is embedded in `Rat` because every intermediate `f32` there is exact: `raw`
satisfies `|raw| ≤ 24575`, division by `8192` only shifts the exponent,
`max`/`min` are exact, and `value * 10.0` has a numerator below `2^24`, so
`round` receives the exact rational and produces an exact small integer.
Only the final division by `10.0` rounds in `f32`; that rounding preserves
sign and zero-ness, and the rational carried here is the ideal one-decimal
value the claim speaks about. -/
def process_midi_message (ks : KeyStates) (m : MidiMessageForOsc) :
    KeyStates × List (String × OscVal) :=
  if m.data1 > 127 then (ks, [])
  else
    match m.status &&& 0xF0 with
    | 0x90 =>
      let noteName := midi_note_to_name m.data1
      let oscNoteName := note_name_for_osc noteName
      let noteStateInt : Int := if m.data2 > 0 then 1 else 0
      (ksInsert ks noteName noteStateInt,
       [("/avatar/parameters/" ++ oscNoteName, OscVal.int noteStateInt)])
    | 0x80 =>
      let noteName := midi_note_to_name m.data1
      let oscNoteName := note_name_for_osc noteName
      (ksInsert ks noteName 0,
       [("/avatar/parameters/" ++ oscNoteName, OscVal.int 0)])
    | 0xE0 =>
      let pitchBendRaw : Int := (m.data2 : Int) * 128 + (m.data1 : Int) - 8192
      let pitchBendValue : Rat := min (max ((pitchBendRaw : Rat) / 8192) (-1)) 1
      let pitchBendRounded : Rat := (roundAway (pitchBendValue * 10) : Rat) / 10
      if pitchBendRounded > 0 then
        (ks, [("/avatar/parameters/PitchUp", OscVal.float pitchBendRounded)])
      else if pitchBendRounded < 0 then
        (ks, [("/avatar/parameters/PitchDown", OscVal.float |pitchBendRounded|)])
      else (ks, [])
    | _ => (ks, [])

/-- **C6.** For every relayed MIDI message with status nibble `0x9` and note
number `n ≤ 127`: with velocity `> 0` the relay sends integer `1` at
`/avatar/parameters/<NoteName>` (NoteName the 12-tone chromatic name with
octave `n / 12 - 1` and the sharp escaped) and marks the note down in
`key_states`; with velocity `0`, or with status nibble `0x8`, it sends
integer `0` at the same address and marks the note up. -/
theorem osc_sender_note_messages (ks : KeyStates) (m : MidiMessageForOsc)
    (hnote : m.data1 ≤ 127) :
    (m.status &&& 0xF0 = 0x90 → m.data2 > 0 →
        process_midi_message ks m
          = (ksInsert ks (midi_note_to_name m.data1) 1,
             [("/avatar/parameters/" ++ note_name_for_osc (midi_note_to_name m.data1),
               OscVal.int 1)]))
      ∧ (m.status &&& 0xF0 = 0x90 → m.data2 = 0 →
          process_midi_message ks m
            = (ksInsert ks (midi_note_to_name m.data1) 0,
               [("/avatar/parameters/" ++ note_name_for_osc (midi_note_to_name m.data1),
                 OscVal.int 0)]))
      ∧ (m.status &&& 0xF0 = 0x80 →
          process_midi_message ks m
            = (ksInsert ks (midi_note_to_name m.data1) 0,
               [("/avatar/parameters/" ++ note_name_for_osc (midi_note_to_name m.data1),
                 OscVal.int 0)]))
      ∧ midi_note_to_name m.data1
          = NOTE_NAMES.getD (m.data1 % 12) "" ++ toString ((m.data1 / 12 : Int) - 1) := by
  have hng : ¬ (m.data1 > 127) := by omega
  refine ⟨?_, ?_, ?_, ?_⟩
  · intro hstat hvel
    unfold process_midi_message
    rw [if_neg hng, hstat]
    simp only [if_pos hvel]
  · intro hstat hvel
    unfold process_midi_message
    rw [if_neg hng, hstat]
    have : ¬ (m.data2 > 0) := by omega
    simp only [if_neg this]
  · intro hstat
    unfold process_midi_message
    rw [if_neg hng, hstat]
  · unfold midi_note_to_name
    rw [if_neg hng]

theorem osc_sender_note_messages_witness :
    ((61 : Nat) ≤ 127)
      ∧ (((0x91 : Nat) &&& 0xF0 = 0x90 → (100 : Nat) > 0 →
            process_midi_message (fun _ => none) ⟨0x91, 61, 100, 0⟩
              = (ksInsert (fun _ => none) (midi_note_to_name 61) 1,
                 [("/avatar/parameters/" ++ note_name_for_osc (midi_note_to_name 61),
                   OscVal.int 1)]))
        ∧ ((0x91 : Nat) &&& 0xF0 = 0x90 → (100 : Nat) = 0 →
            process_midi_message (fun _ => none) ⟨0x91, 61, 100, 0⟩
              = (ksInsert (fun _ => none) (midi_note_to_name 61) 0,
                 [("/avatar/parameters/" ++ note_name_for_osc (midi_note_to_name 61),
                   OscVal.int 0)]))
        ∧ ((0x91 : Nat) &&& 0xF0 = 0x80 →
            process_midi_message (fun _ => none) ⟨0x91, 61, 100, 0⟩
              = (ksInsert (fun _ => none) (midi_note_to_name 61) 0,
                 [("/avatar/parameters/" ++ note_name_for_osc (midi_note_to_name 61),
                   OscVal.int 0)]))
        ∧ midi_note_to_name 61
            = NOTE_NAMES.getD (61 % 12) "" ++ toString ((61 / 12 : Int) - 1)) :=
  ⟨by decide, osc_sender_note_messages (fun _ => none) ⟨0x91, 61, 100, 0⟩ (by decide)⟩

/-- **C7.** For every relayed pitch-bend message with 14-bit data bytes, the
relay normalizes the decoded bend to `[-1, 1]` and rounds it to one decimal
place; a positive rounded value is sent at `/avatar/parameters/PitchUp`, a
negative one as its absolute value at `/avatar/parameters/PitchDown`, and a
zero rounded value — in particular the exactly-centered raw value 8192 —
produces no message at all, leaving `key_states` untouched. -/
theorem osc_sender_pitch_bend (ks : KeyStates) (m : MidiMessageForOsc)
    (hstat : m.status &&& 0xF0 = 0xE0) (h1 : m.data1 ≤ 127) (h2 : m.data2 ≤ 127) :
    (-1 ≤ min (max ((((m.data2 : Int) * 128 + (m.data1 : Int) - 8192 : Int) : Rat) / 8192) (-1)) 1
      ∧ min (max ((((m.data2 : Int) * 128 + (m.data1 : Int) - 8192 : Int) : Rat) / 8192) (-1)) 1 ≤ 1)
      ∧ (process_midi_message ks m).1 = ks
      ∧ (∀ k : Int,
          k = roundAway
              ((min (max ((((m.data2 : Int) * 128 + (m.data1 : Int) - 8192 : Int) : Rat) / 8192) (-1)) 1) * 10) →
            (0 < k → (process_midi_message ks m).2
                = [("/avatar/parameters/PitchUp", OscVal.float ((k : Rat) / 10))])
            ∧ (k < 0 → (process_midi_message ks m).2
                = [("/avatar/parameters/PitchDown", OscVal.float (-((k : Rat) / 10)))])
            ∧ (k = 0 → (process_midi_message ks m).2 = []))
      ∧ ((m.data2 : Int) * 128 + (m.data1 : Int) = 8192 → (process_midi_message ks m).2 = []) := by
  have hng : ¬ (m.data1 > 127) := by omega
  have hred : process_midi_message ks m
      = (let pitchBendRaw : Int := (m.data2 : Int) * 128 + (m.data1 : Int) - 8192
         let pitchBendValue : Rat := min (max ((pitchBendRaw : Rat) / 8192) (-1)) 1
         let pitchBendRounded : Rat := (roundAway (pitchBendValue * 10) : Rat) / 10
         if pitchBendRounded > 0 then
           (ks, [("/avatar/parameters/PitchUp", OscVal.float pitchBendRounded)])
         else if pitchBendRounded < 0 then
           (ks, [("/avatar/parameters/PitchDown", OscVal.float |pitchBendRounded|)])
         else (ks, [])) := by
    unfold process_midi_message
    rw [if_neg hng, hstat]
  constructor
  · constructor
    · exact le_min (le_max_right _ _) (by norm_num)
    · exact min_le_right _ _
  refine ⟨?_, ?_, ?_⟩
  · rw [hred]
    simp only []
    split_ifs <;> rfl
  · intro k hk
    refine ⟨?_, ?_, ?_⟩
    · intro hkpos
      have hq : (0 : Rat) < (k : Rat) := by exact_mod_cast hkpos
      rw [hred]
      simp only []
      rw [← hk]
      rw [if_pos (by positivity : (k : Rat) / 10 > 0)]
    · intro hkneg
      have hq : (k : Rat) < 0 := by exact_mod_cast hkneg
      have hq10 : (k : Rat) / 10 < 0 := div_neg_of_neg_of_pos hq (by norm_num)
      rw [hred]
      simp only []
      rw [← hk]
      rw [if_neg (by exact not_lt.mpr (le_of_lt hq10)), if_pos hq10, abs_of_neg hq10]
    · intro hk0
      rw [hred]
      simp only []
      rw [← hk, hk0]
      norm_num
  · intro hcenter
    have hraw : (m.data2 : Int) * 128 + (m.data1 : Int) - 8192 = 0 := by omega
    rw [hred]
    simp only [hraw]
    norm_num [roundAway]

theorem osc_sender_pitch_bend_witness :
    ((MidiMessageForOsc.mk 0xE0 0 96 0).status &&& 0xF0 = 0xE0)
      ∧ ((-1 ≤ min (max (((((MidiMessageForOsc.mk 0xE0 0 96 0).data2 : Int) * 128
                + ((MidiMessageForOsc.mk 0xE0 0 96 0).data1 : Int) - 8192 : Int) : Rat) / 8192) (-1)) 1
          ∧ min (max (((((MidiMessageForOsc.mk 0xE0 0 96 0).data2 : Int) * 128
                + ((MidiMessageForOsc.mk 0xE0 0 96 0).data1 : Int) - 8192 : Int) : Rat) / 8192) (-1)) 1 ≤ 1)
        ∧ (process_midi_message (fun _ => none) (MidiMessageForOsc.mk 0xE0 0 96 0)).1 = (fun _ => none)
        ∧ (∀ k : Int,
            k = roundAway
                ((min (max (((((MidiMessageForOsc.mk 0xE0 0 96 0).data2 : Int) * 128
                      + ((MidiMessageForOsc.mk 0xE0 0 96 0).data1 : Int) - 8192 : Int) : Rat) / 8192) (-1)) 1) * 10) →
              (0 < k → (process_midi_message (fun _ => none) (MidiMessageForOsc.mk 0xE0 0 96 0)).2
                  = [("/avatar/parameters/PitchUp", OscVal.float ((k : Rat) / 10))])
              ∧ (k < 0 → (process_midi_message (fun _ => none) (MidiMessageForOsc.mk 0xE0 0 96 0)).2
                  = [("/avatar/parameters/PitchDown", OscVal.float (-((k : Rat) / 10)))])
              ∧ (k = 0 → (process_midi_message (fun _ => none) (MidiMessageForOsc.mk 0xE0 0 96 0)).2 = []))
        ∧ (((MidiMessageForOsc.mk 0xE0 0 96 0).data2 : Int) * 128
              + ((MidiMessageForOsc.mk 0xE0 0 96 0).data1 : Int) = 8192
            → (process_midi_message (fun _ => none) (MidiMessageForOsc.mk 0xE0 0 96 0)).2 = [])) :=
  ⟨by decide,
   osc_sender_pitch_bend (fun _ => none) ⟨0xE0, 0, 96, 0⟩ (by decide) (by decide) (by decide)⟩

/-- The three OSC message paths from `main.rs` `OscConfig`. -/
structure OscConfigPaths where
  transposePath : String
  transposeUpPath : String
  transposeDownPath : String

/-- `rosc::OscType` restricted to the variants `handle_message` in
`src/remote/osc_listener.rs` distinguishes; every other variant behaves like
`other`.  `float`/`double` payloads are `f32`/`f64` in the source and are
embedded as their exact rational values: every `f32`/`f64` is an exact
rational, and the two comparisons the listener performs on them
(`(v - 1.0).abs() < EPSILON`) are exact as well, because for arguments in
`[1/2, 2]` the subtraction `v - 1.0` is exact (Sterbenz) and outside that
interval the computed difference is far above `EPSILON` either way. -/
inductive OscArg where
  | int (v : Int)
  | long (v : Int)
  | float (v : Rat)
  | double (v : Rat)
  | boolean (b : Bool)
  | other
deriving DecidableEq

structure OscMessage where
  addr : String
  args : List OscArg
deriving DecidableEq

/-- `f32::EPSILON` = 2^-23. -/
def f32Epsilon : Rat := 1 / 2 ^ 23

/-- `f64::EPSILON` = 2^-52. -/
def f64Epsilon : Rat := 1 / 2 ^ 52

/-- The `should_increment` / `should_decrement` match of
`src/remote/osc_listener.rs::handle_message` (identical in both arms). -/
def oscArgTruthyOne : OscArg → Bool
  | .int v => v == 1
  | .long v => v == 1
  | .float v => decide (|v - 1| < f32Epsilon)
  | .double v => decide (|v - 1| < f64Epsilon)
  | .boolean b => b
  | .other => false

/-- The `val_opt` match of the `/transpose` arm: `Int` taken as is, `Long`
via `i32::try_from`, `Float`/`Double` via `f64::round` and a saturating
`as i32` cast (Rust float-to-int casts saturate). -/
def oscArgNumeric : OscArg → Option Int
  | .int v => some v
  | .long v => if -2147483648 ≤ v ∧ v ≤ 2147483647 then some v else none
  | .float v => some (rustClamp (roundAway v) (-2147483648) 2147483647)
  | .double v => some (rustClamp (roundAway v) (-2147483648) 2147483647)
  | _ => none

/-- `src/remote/osc_listener.rs::handle_message`: dispatch on the configured
set / increment / decrement paths; the set arm feeds the numeric argument to
`set_transpose_semitones`, the increment/decrement arms do so with
`current ± 1` when the first argument is truthy; everything else (missing or
non-matching argument, unrecognized address) leaves the state unchanged. -/
def handle_message (cfg : TransposeConfig) (paths : OscConfigPaths)
    (st : AppState) (msg : OscMessage) : AppState :=
  if msg.addr = paths.transposePath then
    match msg.args.head? with
    | some arg =>
      match oscArgNumeric arg with
      | some v => (set_transpose_semitones cfg v st).1
      | none => st
    | none => st
  else if msg.addr = paths.transposeUpPath then
    match msg.args.head? with
    | some arg =>
      if oscArgTruthyOne arg then (set_transpose_semitones cfg (st.transpose + 1) st).1
      else st
    | none => st
  else if msg.addr = paths.transposeDownPath then
    match msg.args.head? with
    | some arg =>
      if oscArgTruthyOne arg then (set_transpose_semitones cfg (st.transpose - 1) st).1
      else st
    | none => st
  else st

/-- `rosc::OscPacket`: a message or a bundle of packets. -/
inductive OscPacket where
  | message (msg : OscMessage)
  | bundle (content : List OscPacket)

mutual
/-- `src/remote/osc_listener.rs::handle_packet`: bundles are unwrapped
recursively, each inner packet handled in order. -/
def handle_packet (cfg : TransposeConfig) (paths : OscConfigPaths) :
    OscPacket → AppState → AppState
  | .message msg, st => handle_message cfg paths st msg
  | .bundle content, st => handlePacketList cfg paths content st

def handlePacketList (cfg : TransposeConfig) (paths : OscConfigPaths) :
    List OscPacket → AppState → AppState
  | [], st => st
  | p :: rest, st => handlePacketList cfg paths rest (handle_packet cfg paths p st)
end

/-- **C8 (amended).** For every control-protocol message whose address equals
the configured increment (resp. decrement) path and differs from the paths
checked before it: if the first argument is truthy — an integer equal to 1,
boolean true, or a single/double float whose exact distance to 1 is strictly
below the corresponding machine epsilon — the listener stores the clamped
value of `current + 1` (resp. `current - 1`) through the shared setter; for
any non-truthy first argument, and for a message with no argument, the state
is left unchanged.  (The original claim's "float equal to 1" is refuted by
`osc_truthy_epsilon_counterexample`: the float `1 - 2^-24` also matches.) -/
theorem osc_listener_inc_dec (cfg : TransposeConfig) (paths : OscConfigPaths)
    (st : AppState) (msg : OscMessage) (h : cfg.min ≤ cfg.max) :
    (msg.addr = paths.transposeUpPath → msg.addr ≠ paths.transposePath →
        (∀ a, msg.args.head? = some a → oscArgTruthyOne a = true →
            handle_message cfg paths st msg = (set_transpose_semitones cfg (st.transpose + 1) st).1)
          ∧ (∀ a, msg.args.head? = some a → oscArgTruthyOne a = false →
              handle_message cfg paths st msg = st)
          ∧ (msg.args.head? = none → handle_message cfg paths st msg = st))
      ∧ (msg.addr = paths.transposeDownPath → msg.addr ≠ paths.transposePath →
            msg.addr ≠ paths.transposeUpPath →
          (∀ a, msg.args.head? = some a → oscArgTruthyOne a = true →
              handle_message cfg paths st msg = (set_transpose_semitones cfg (st.transpose - 1) st).1)
            ∧ (∀ a, msg.args.head? = some a → oscArgTruthyOne a = false →
                handle_message cfg paths st msg = st)
            ∧ (msg.args.head? = none → handle_message cfg paths st msg = st))
      ∧ (∀ a, oscArgTruthyOne a = true ↔
          (a = .int 1 ∨ a = .long 1
            ∨ (∃ v, a = .float v ∧ |v - 1| < f32Epsilon)
            ∨ (∃ v, a = .double v ∧ |v - 1| < f64Epsilon)
            ∨ a = .boolean true))
      ∧ cfg.min ≤ (set_transpose_semitones cfg (st.transpose + 1) st).1.transpose
      ∧ (set_transpose_semitones cfg (st.transpose + 1) st).1.transpose ≤ cfg.max := by
  refine ⟨?_, ?_, ?_, ?_, ?_⟩
  · intro hup hnset
    unfold handle_message
    rw [if_neg hnset, if_pos hup]
    refine ⟨?_, ?_, ?_⟩
    · intro a ha htr
      rw [ha]
      simp only [htr, if_true]
    · intro a ha htr
      rw [ha]
      simp [htr]
    · intro ha
      rw [ha]
  · intro hdown hnset hnup
    unfold handle_message
    rw [if_neg hnset, if_neg hnup, if_pos hdown]
    refine ⟨?_, ?_, ?_⟩
    · intro a ha htr
      rw [ha]
      simp only [htr, if_true]
    · intro a ha htr
      rw [ha]
      simp [htr]
    · intro ha
      rw [ha]
  · intro a
    cases a <;> simp [oscArgTruthyOne]
  · exact (rustClamp_mem (st.transpose + 1) cfg.min cfg.max h).1
  · exact (rustClamp_mem (st.transpose + 1) cfg.min cfg.max h).2

/-- The increment arm's epsilon comparison also accepts the `f32` value
`1 - 2^-24` (exactly representable), which is not equal to 1: a message with
that float as first argument at the increment path changes the transpose
offset from 0 to 1, refuting the original C8 ("an integer or float equal to
1, or boolean true", otherwise unchanged). -/
theorem osc_truthy_epsilon_counterexample :
    ((16777215 / 16777216 : Rat) ≠ 1)
      ∧ oscArgTruthyOne (.float (16777215 / 16777216)) = true
      ∧ handle_message ⟨-24, 24⟩ ⟨"/transpose", "/transposeUp", "/transposeDown"⟩
            ⟨0, false, false, false, true, true⟩
            ⟨"/transposeUp", [.float (16777215 / 16777216)]⟩
          = ⟨1, false, false, false, true, true⟩
      ∧ (⟨1, false, false, false, true, true⟩ : AppState)
          ≠ ⟨0, false, false, false, true, true⟩ := by
  have habs : |(16777215 / 16777216 : Rat) - 1| < 1 / 2 ^ 23 := by
    rw [show (16777215 / 16777216 : Rat) - 1 = -(1 / 16777216) by norm_num, abs_neg,
      abs_of_nonneg (by norm_num)]
    norm_num
  refine ⟨by norm_num, ?_, ?_, by decide⟩
  · simp only [oscArgTruthyOne, f32Epsilon, decide_eq_true_eq]
    exact habs
  · unfold handle_message
    rw [if_neg (by decide : ¬(("/transposeUp" : String) = "/transpose"))]
    simp only [List.head?, oscArgTruthyOne, f32Epsilon]
    rw [if_pos (decide_eq_true habs)]
    rfl

theorem osc_listener_inc_dec_witness :
    ((-24 : Int) ≤ 24)
      ∧ ((("/transposeUp" : String) = "/transposeUp" → ("/transposeUp" : String) ≠ "/transpose" →
            (∀ a, ([OscArg.int 1] : List OscArg).head? = some a → oscArgTruthyOne a = true →
                handle_message ⟨-24, 24⟩ ⟨"/transpose", "/transposeUp", "/transposeDown"⟩
                    ⟨0, false, false, false, true, true⟩ ⟨"/transposeUp", [OscArg.int 1]⟩
                  = (set_transpose_semitones ⟨-24, 24⟩
                      ((⟨0, false, false, false, true, true⟩ : AppState).transpose + 1)
                      ⟨0, false, false, false, true, true⟩).1)
              ∧ (∀ a, ([OscArg.int 1] : List OscArg).head? = some a → oscArgTruthyOne a = false →
                  handle_message ⟨-24, 24⟩ ⟨"/transpose", "/transposeUp", "/transposeDown"⟩
                      ⟨0, false, false, false, true, true⟩ ⟨"/transposeUp", [OscArg.int 1]⟩
                    = ⟨0, false, false, false, true, true⟩)
              ∧ (([OscArg.int 1] : List OscArg).head? = none →
                  handle_message ⟨-24, 24⟩ ⟨"/transpose", "/transposeUp", "/transposeDown"⟩
                      ⟨0, false, false, false, true, true⟩ ⟨"/transposeUp", [OscArg.int 1]⟩
                    = ⟨0, false, false, false, true, true⟩))
        ∧ (("/transposeUp" : String) = "/transposeDown" → ("/transposeUp" : String) ≠ "/transpose" →
              ("/transposeUp" : String) ≠ "/transposeUp" →
            (∀ a, ([OscArg.int 1] : List OscArg).head? = some a → oscArgTruthyOne a = true →
                handle_message ⟨-24, 24⟩ ⟨"/transpose", "/transposeUp", "/transposeDown"⟩
                    ⟨0, false, false, false, true, true⟩ ⟨"/transposeUp", [OscArg.int 1]⟩
                  = (set_transpose_semitones ⟨-24, 24⟩
                      ((⟨0, false, false, false, true, true⟩ : AppState).transpose - 1)
                      ⟨0, false, false, false, true, true⟩).1)
              ∧ (∀ a, ([OscArg.int 1] : List OscArg).head? = some a → oscArgTruthyOne a = false →
                  handle_message ⟨-24, 24⟩ ⟨"/transpose", "/transposeUp", "/transposeDown"⟩
                      ⟨0, false, false, false, true, true⟩ ⟨"/transposeUp", [OscArg.int 1]⟩
                    = ⟨0, false, false, false, true, true⟩)
              ∧ (([OscArg.int 1] : List OscArg).head? = none →
                  handle_message ⟨-24, 24⟩ ⟨"/transpose", "/transposeUp", "/transposeDown"⟩
                      ⟨0, false, false, false, true, true⟩ ⟨"/transposeUp", [OscArg.int 1]⟩
                    = ⟨0, false, false, false, true, true⟩))
        ∧ (∀ a, oscArgTruthyOne a = true ↔
            (a = .int 1 ∨ a = .long 1
              ∨ (∃ v, a = .float v ∧ |v - 1| < f32Epsilon)
              ∨ (∃ v, a = .double v ∧ |v - 1| < f64Epsilon)
              ∨ a = .boolean true))
        ∧ (-24 : Int) ≤ (set_transpose_semitones ⟨-24, 24⟩
              ((⟨0, false, false, false, true, true⟩ : AppState).transpose + 1)
              ⟨0, false, false, false, true, true⟩).1.transpose
        ∧ (set_transpose_semitones ⟨-24, 24⟩
              ((⟨0, false, false, false, true, true⟩ : AppState).transpose + 1)
              ⟨0, false, false, false, true, true⟩).1.transpose ≤ 24) :=
  ⟨by decide,
   osc_listener_inc_dec ⟨-24, 24⟩ ⟨"/transpose", "/transposeUp", "/transposeDown"⟩
     ⟨0, false, false, false, true, true⟩ ⟨"/transposeUp", [OscArg.int 1]⟩ (by decide)⟩

/-- `u8::to_ascii_lowercase`, applied per character by
`str::eq_ignore_ascii_case`. -/
def asciiLower (c : Char) : Char :=
  if 65 ≤ c.toNat ∧ c.toNat ≤ 90 then Char.ofNat (c.toNat + 32) else c

/-- `str::eq_ignore_ascii_case`. -/
def eqIgnoreAsciiCase (a b : String) : Bool :=
  a.data.map asciiLower == b.data.map asciiLower

/-- `str::starts_with` (case-sensitive). -/
def strStartsWith (s k : String) : Bool :=
  List.isPrefixOf k.data s.data

/-- `u8::is_ascii_digit`. -/
def isDigitChar (c : Char) : Bool :=
  decide (48 ≤ c.toNat) && decide (c.toNat ≤ 57)

/-- Value of a non-empty all-digit character list, else `none`. -/
def digitsVal (cs : List Char) : Option Nat :=
  match cs with
  | [] => none
  | _ =>
    if cs.all isDigitChar then
      some (cs.foldl (fun acc c => acc * 10 + (c.toNat - 48)) 0)
    else none

def digitsToInt (cs : List Char) : Option Int :=
  match digitsVal cs with
  | some n => some (n : Int)
  | none => none

/-- `str::parse::<i32>`: optional sign, at least one ASCII digit, nothing
else, overflow rejected. -/
def parseI32 (s : String) : Option Int :=
  let mag : Option Int :=
    match s.data with
    | [] => none
    | c :: rest =>
      if c = '+' then digitsToInt rest
      else if c = '-' then Option.map (fun v : Int => -v) (digitsToInt rest)
      else digitsToInt (c :: rest)
  match mag with
  | some v => if -2147483648 ≤ v ∧ v ≤ 2147483647 then some v else none
  | none => none

/-- `str::trim`: drop leading and trailing whitespace (modelled over the
character list; agrees with Rust on ASCII whitespace). -/
def rustTrim (s : String) : String :=
  String.mk (((s.data.dropWhile Char.isWhitespace).reverse.dropWhile Char.isWhitespace).reverse)

/-- The console line echoed by one iteration of the stdin handler loop. -/
inductive StdinEcho where
  | exitRequested
  | debugEcho (enabled : Bool)
  | oscEnabledEcho (enabled : Bool)
  | oscOriginalEcho (original : Bool)
  | helpEcho
  | mqttEcho (enabled : Bool)
  | transposeEcho (v : Int)
  | unrecognizedEcho
deriving DecidableEq

/-- Continuation of `src/general/stdin_handler.rs` after the `osc_original`
block: the `help`, `mqtt on/off` and bare-integer checks, ending in the
unrecognized-command message.  Split out because the `osc_original` block
falls through into it when its argument matches nothing. -/
def stdinTail (cfg : TransposeConfig) (st : AppState) (cmd : String) :
    AppState × StdinEcho :=
  if eqIgnoreAsciiCase cmd "help" || eqIgnoreAsciiCase cmd "h" then
    (st, .helpEcho)
  else if eqIgnoreAsciiCase cmd "mqtt on" || eqIgnoreAsciiCase cmd "mqtt enable" then
    ({ st with mqttEnabled := true }, .mqttEcho true)
  else if eqIgnoreAsciiCase cmd "mqtt off" || eqIgnoreAsciiCase cmd "mqtt disable" then
    ({ st with mqttEnabled := false }, .mqttEcho false)
  else
    match parseI32 cmd with
    | some v => ((set_transpose_semitones cfg v st).1,
                 .transposeEcho (set_transpose_semitones cfg v st).2)
    | none => (st, .unrecognizedEcho)

/-- The `osc_original <arg>` block of `src/general/stdin_handler.rs`
(entered when `cmd` starts with `osc_original ` / `osc_original:` or equals
one of the `osc_original on|off|enable|disable` forms): `parts[1]` decides
`1`/`0`, then the explicit on/off forms; anything else falls through to the
remaining command checks. -/
def stdinOscOriginalArg (cfg : TransposeConfig) (st : AppState) (cmd : String) :
    AppState × StdinEcho :=
  let parts := cmd.split (fun c => c == ' ' || c == ':')
  match parts with
  | _ :: p1 :: _ =>
    if rustTrim p1 = "1" then ({ st with oscSendOriginal := true }, .oscOriginalEcho true)
    else if rustTrim p1 = "0" then ({ st with oscSendOriginal := false }, .oscOriginalEcho false)
    else if eqIgnoreAsciiCase cmd "osc_original on"
        || eqIgnoreAsciiCase cmd "osc_original enable" then
      ({ st with oscSendOriginal := true }, .oscOriginalEcho true)
    else if eqIgnoreAsciiCase cmd "osc_original off"
        || eqIgnoreAsciiCase cmd "osc_original disable" then
      ({ st with oscSendOriginal := false }, .oscOriginalEcho false)
    else stdinTail cfg st cmd
  | _ => stdinTail cfg st cmd

/-- One loop iteration of `src/general/stdin_handler.rs::spawn_stdin_handler`
on one input line (the general-module handler compiled into the binary):
trim, then the command chain in source order. -/
def stdin_handle_line (cfg : TransposeConfig) (st : AppState) (line : String) :
    AppState × StdinEcho :=
  let cmd := rustTrim line
  if cmd == "" then
    ({ st with exitFlag := true, mqttEnabled := false }, .exitRequested)
  else if eqIgnoreAsciiCase cmd "exit" || eqIgnoreAsciiCase cmd "quit"
      || eqIgnoreAsciiCase cmd "q" then
    ({ st with exitFlag := true, mqttEnabled := false }, .exitRequested)
  else if eqIgnoreAsciiCase cmd "debug on" || eqIgnoreAsciiCase cmd "debug enable" then
    ({ st with debugEnabled := true }, .debugEcho true)
  else if eqIgnoreAsciiCase cmd "debug off" || eqIgnoreAsciiCase cmd "debug disable" then
    ({ st with debugEnabled := false }, .debugEcho false)
  else if eqIgnoreAsciiCase cmd "osc on" || eqIgnoreAsciiCase cmd "osc enable"
      || cmd == "1" then
    ({ st with oscSendingEnabled := true }, .oscEnabledEcho true)
  else if eqIgnoreAsciiCase cmd "osc off" || eqIgnoreAsciiCase cmd "osc disable"
      || cmd == "0" then
    ({ st with oscSendingEnabled := false }, .oscEnabledEcho false)
  else if eqIgnoreAsciiCase cmd "osc original" || eqIgnoreAsciiCase cmd "osc input"
      || eqIgnoreAsciiCase cmd "osc_original" then
    ({ st with oscSendOriginal := true }, .oscOriginalEcho true)
  else if eqIgnoreAsciiCase cmd "osc transposed" || eqIgnoreAsciiCase cmd "osc output"
      || eqIgnoreAsciiCase cmd "osc_transposed" then
    ({ st with oscSendOriginal := false }, .oscOriginalEcho false)
  else if strStartsWith cmd "osc_original " || strStartsWith cmd "osc_original:"
      || eqIgnoreAsciiCase cmd "osc_original on" || eqIgnoreAsciiCase cmd "osc_original off"
      || eqIgnoreAsciiCase cmd "osc_original enable"
      || eqIgnoreAsciiCase cmd "osc_original disable" then
    stdinOscOriginalArg cfg st cmd
  else stdinTail cfg st cmd

theorem parseI32_shape (s : String) (v : Int) (h : parseI32 s = some v) :
    ∃ c cs, s.data = c :: cs ∧ (c = '+' ∨ c = '-' ∨ isDigitChar c = true) := by
  unfold parseI32 at h
  cases hs : s.data with
  | nil => rw [hs] at h; simp at h
  | cons c cs =>
    rw [hs] at h
    simp only [] at h
    refine ⟨c, cs, rfl, ?_⟩
    by_cases hp : c = '+'
    · exact Or.inl hp
    by_cases hm : c = '-'
    · exact Or.inr (Or.inl hm)
    refine Or.inr (Or.inr ?_)
    rw [if_neg hp, if_neg hm] at h
    by_cases hd : (c :: cs).all isDigitChar = true
    · rw [List.all_cons] at hd
      exact (Bool.and_eq_true _ _).mp hd |>.1
    · exfalso
      unfold digitsToInt digitsVal at h
      rw [if_neg hd] at h
      simp at h

theorem sign_or_digit_facts (c : Char) (h : c = '+' ∨ c = '-' ∨ isDigitChar c = true) :
    c.toNat ≤ 57 ∧ asciiLower c = c := by
  rcases h with h | h | h
  · subst h; exact ⟨by decide, by decide⟩
  · subst h; exact ⟨by decide, by decide⟩
  · unfold isDigitChar at h
    rw [Bool.and_eq_true, decide_eq_true_eq, decide_eq_true_eq] at h
    refine ⟨h.2, ?_⟩
    unfold asciiLower
    rw [if_neg (by omega)]

/-- A string whose first character is a sign or digit never matches
(ASCII-case-insensitively) a keyword starting with a lowercase letter. -/
theorem eqIC_false (cmd k : String) (c : Char) (cs : List Char)
    (hs : cmd.data = c :: cs) (hc : c.toNat ≤ 57) (hlow : asciiLower c = c)
    (hk : k.data.head?.any (fun kc => decide (97 ≤ (asciiLower kc).toNat)) = true) :
    eqIgnoreAsciiCase cmd k = false := by
  cases hkd : k.data with
  | nil => unfold eqIgnoreAsciiCase; rw [hs, hkd]; simp
  | cons kc kcs =>
    rw [hkd] at hk
    simp only [List.head?_cons, Option.any_some, decide_eq_true_eq] at hk
    unfold eqIgnoreAsciiCase
    rw [hs, hkd]
    simp only [List.map_cons, List.cons_beq_cons]
    have hne : (asciiLower c == asciiLower kc) = false := by
      rw [beq_eq_false_iff_ne]
      intro he
      rw [hlow] at he
      rw [he] at hc
      omega
    rw [hne]
    simp

/-- A string whose first character is a sign or digit never starts with a
keyword whose first character is a lowercase letter. -/
theorem strStartsWith_false_of_head (cmd k : String) (c : Char) (cs : List Char)
    (hs : cmd.data = c :: cs) (hc : c.toNat ≤ 57)
    (hk : k.data.head?.any (fun kc => decide (97 ≤ kc.toNat)) = true) :
    strStartsWith cmd k = false := by
  cases hkd : k.data with
  | nil => rw [hkd] at hk; simp at hk
  | cons kc kcs =>
    rw [hkd] at hk
    simp only [List.head?_cons, Option.any_some, decide_eq_true_eq] at hk
    unfold strStartsWith
    rw [hs, hkd]
    simp only [List.isPrefixOf_cons₂]
    have hne : (kc == c) = false := by
      rw [beq_eq_false_iff_ne]
      intro he
      rw [← he] at hc
      omega
    rw [hne, Bool.false_and]

/-- **C4 (amended).** For every command-line input line whose trimmed form
parses as a bare integer `v` and is not one of the two numeric strings `"1"`
and `"0"` (which the earlier `osc on` / `osc off` command checks capture as
relay toggles), the stdin handler sets the transpose offset through the
clamped shared setter and echoes the clamped result.  The original claim's
"including the inputs 1 and 0" is refuted by
`stdin_one_toggles_osc_counterexample`. -/
theorem stdin_bare_integer (cfg : TransposeConfig) (st : AppState) (line : String) (v : Int)
    (h : parseI32 (rustTrim line) = some v)
    (h1 : rustTrim line ≠ "1") (h0 : rustTrim line ≠ "0") :
    stdin_handle_line cfg st line
      = ((set_transpose_semitones cfg v st).1,
         .transposeEcho (set_transpose_semitones cfg v st).2) := by
  obtain ⟨c, cs, hs, hsign⟩ := parseI32_shape (rustTrim line) v h
  obtain ⟨hc, hlow⟩ := sign_or_digit_facts c hsign
  have hne : (rustTrim line == "") = false := by
    rw [beq_eq_false_iff_ne]
    intro he
    rw [he] at hs
    exact absurd hs (by simp)
  have h1f : (rustTrim line == "1") = false := beq_eq_false_iff_ne.mpr h1
  have h0f : (rustTrim line == "0") = false := beq_eq_false_iff_ne.mpr h0
  have e01 := eqIC_false (rustTrim line) "exit" c cs hs hc hlow (by decide)
  have e02 := eqIC_false (rustTrim line) "quit" c cs hs hc hlow (by decide)
  have e03 := eqIC_false (rustTrim line) "q" c cs hs hc hlow (by decide)
  have e04 := eqIC_false (rustTrim line) "debug on" c cs hs hc hlow (by decide)
  have e05 := eqIC_false (rustTrim line) "debug enable" c cs hs hc hlow (by decide)
  have e06 := eqIC_false (rustTrim line) "debug off" c cs hs hc hlow (by decide)
  have e07 := eqIC_false (rustTrim line) "debug disable" c cs hs hc hlow (by decide)
  have e08 := eqIC_false (rustTrim line) "osc on" c cs hs hc hlow (by decide)
  have e09 := eqIC_false (rustTrim line) "osc enable" c cs hs hc hlow (by decide)
  have e10 := eqIC_false (rustTrim line) "osc off" c cs hs hc hlow (by decide)
  have e11 := eqIC_false (rustTrim line) "osc disable" c cs hs hc hlow (by decide)
  have e12 := eqIC_false (rustTrim line) "osc original" c cs hs hc hlow (by decide)
  have e13 := eqIC_false (rustTrim line) "osc input" c cs hs hc hlow (by decide)
  have e14 := eqIC_false (rustTrim line) "osc_original" c cs hs hc hlow (by decide)
  have e15 := eqIC_false (rustTrim line) "osc transposed" c cs hs hc hlow (by decide)
  have e16 := eqIC_false (rustTrim line) "osc output" c cs hs hc hlow (by decide)
  have e17 := eqIC_false (rustTrim line) "osc_transposed" c cs hs hc hlow (by decide)
  have e18 := eqIC_false (rustTrim line) "osc_original on" c cs hs hc hlow (by decide)
  have e19 := eqIC_false (rustTrim line) "osc_original off" c cs hs hc hlow (by decide)
  have e20 := eqIC_false (rustTrim line) "osc_original enable" c cs hs hc hlow (by decide)
  have e21 := eqIC_false (rustTrim line) "osc_original disable" c cs hs hc hlow (by decide)
  have e22 := eqIC_false (rustTrim line) "help" c cs hs hc hlow (by decide)
  have e23 := eqIC_false (rustTrim line) "h" c cs hs hc hlow (by decide)
  have e24 := eqIC_false (rustTrim line) "mqtt on" c cs hs hc hlow (by decide)
  have e25 := eqIC_false (rustTrim line) "mqtt enable" c cs hs hc hlow (by decide)
  have e26 := eqIC_false (rustTrim line) "mqtt off" c cs hs hc hlow (by decide)
  have e27 := eqIC_false (rustTrim line) "mqtt disable" c cs hs hc hlow (by decide)
  have s1 := strStartsWith_false_of_head (rustTrim line) "osc_original " c cs hs hc (by decide)
  have s2 := strStartsWith_false_of_head (rustTrim line) "osc_original:" c cs hs hc (by decide)
  unfold stdin_handle_line stdinTail
  simp only [hne, h1f, h0f, e01, e02, e03, e04, e05, e06, e07, e08, e09, e10, e11, e12,
    e13, e14, e15, e16, e17, e18, e19, e20, e21, e22, e23, e24, e25, e26, e27, s1, s2,
    Bool.or_self, Bool.false_or, Bool.or_false, Bool.false_eq_true, if_false, h]

theorem stdin_bare_integer_witness :
    (parseI32 (rustTrim "  5 ") = some 5)
      ∧ (rustTrim "  5 " ≠ "1")
      ∧ (rustTrim "  5 " ≠ "0")
      ∧ stdin_handle_line ⟨-24, 24⟩ ⟨0, false, false, false, true, true⟩ "  5 "
          = ((set_transpose_semitones ⟨-24, 24⟩ 5 ⟨0, false, false, false, true, true⟩).1,
             .transposeEcho
               (set_transpose_semitones ⟨-24, 24⟩ 5 ⟨0, false, false, false, true, true⟩).2) :=
  ⟨by decide, by decide, by decide,
   stdin_bare_integer ⟨-24, 24⟩ ⟨0, false, false, false, true, true⟩ "  5 " 5
     (by decide) (by decide) (by decide)⟩

/-- The stdin inputs `"1"` and `"0"` parse as integers but are captured by
the `osc on` / `osc off` command check before integer parsing: input `"1"`
enables relay sending and leaves the transpose offset at 0, where the
original C4 demands the offset become `clamp(1) = 1`. -/
theorem stdin_one_toggles_osc_counterexample :
    (parseI32 "1" = some 1)
      ∧ stdin_handle_line ⟨-24, 24⟩ ⟨0, false, false, false, true, true⟩ "1"
          = (⟨0, false, false, true, true, true⟩, .oscEnabledEcho true)
      ∧ (stdin_handle_line ⟨-24, 24⟩ ⟨0, false, false, false, true, true⟩ "1").1.transpose = 0
      ∧ (set_transpose_semitones ⟨-24, 24⟩ 1 ⟨0, false, false, false, true, true⟩).2 = 1
      ∧ (0 : Int) ≠ 1 := by
  refine ⟨by decide, by decide, by decide, by decide, by decide⟩

/-- `str::to_ascii_lowercase`. -/
def asciiLowerStr (s : String) : String :=
  String.mk (s.data.map asciiLower)

def digitsNat (cs : List Char) : Nat :=
  cs.foldl (fun acc c => acc * 10 + (c.toNat - 48)) 0

/-- Decimal-literal core for the `f32` fallback of
`parse_transpose_payload`: digits with an optional fractional part.  The
parsed value is kept as an exact rational; the quantization of Rust's
`str::parse::<f32>` to the nearest float (and its exotic accepted forms:
exponents, `inf`, `nan`) is not modelled — no claim depends on the parsed
magnitude, only on the fact that the result is routed through the clamped
setter. -/
def parseDecCore (cs : List Char) : Option Rat :=
  let intPart := cs.takeWhile isDigitChar
  let rest := cs.drop intPart.length
  match rest with
  | [] => if intPart.isEmpty then none else some ((digitsNat intPart : Nat) : Rat)
  | '.' :: frac =>
    if frac.all isDigitChar && !(intPart.isEmpty && frac.isEmpty) then
      some (((digitsNat intPart : Nat) : Rat) + ((digitsNat frac : Nat) : Rat) / (10 : Rat) ^ frac.length)
    else none
  | _ => none

def parseF32 (s : String) : Option Rat :=
  match s.data with
  | [] => none
  | c :: rest =>
    if c = '+' then parseDecCore rest
    else if c = '-' then Option.map (fun q : Rat => -q) (parseDecCore rest)
    else parseDecCore (c :: rest)

/-- `src/remote/mqtt_listener.rs` `parse_transpose_payload`: trimmed UTF-8
text, integer parse first, else float parse rounded (`vf.round() as i32`,
a saturating cast). -/
def parse_transpose_payload (payload : String) : Option Int :=
  let s := rustTrim payload
  match parseI32 s with
  | some v => some v
  | none =>
    match parseF32 s with
    | some q => some (rustClamp (roundAway q) (-2147483648) 2147483647)
    | none => none

/-- `src/remote/mqtt_listener.rs` `parse_boolean_payload`: trimmed,
ASCII-lowercased text equal to `1`, `true` or `on`. -/
def parse_boolean_payload (payload : String) : Bool :=
  let s := asciiLowerStr (rustTrim payload)
  s == "1" || s == "true" || s == "on"

/-- The `MqttTopics` of `src/remote/mqtt_listener.rs` (the dynamic
custom-control topic vectors are omitted: their handler arm performs no
shared-state write). -/
structure MqttTopics where
  transposeSet : String
  transposeUp : String
  transposeDown : String
  transposeState : String
  availability : String
  oscSendingEnabledSet : String
  oscSendingEnabledState : String
  oscSendOriginalSet : String
  oscSendOriginalState : String
  debugEnabledSet : String
  debugEnabledState : String

/-- `MqttTopics::new`. -/
def MqttTopics.ofBase (base : String) : MqttTopics where
  transposeSet := base ++ "/transpose"
  transposeUp := base ++ "/transposeUp"
  transposeDown := base ++ "/transposeDown"
  transposeState := base ++ "/state/transpose"
  availability := base ++ "/availability"
  oscSendingEnabledSet := base ++ "/osc/sendingEnabled"
  oscSendingEnabledState := base ++ "/state/osc/sendingEnabled"
  oscSendOriginalSet := base ++ "/osc/sendOriginal"
  oscSendOriginalState := base ++ "/state/osc/sendOriginal"
  debugEnabledSet := base ++ "/debug/enabled"
  debugEnabledState := base ++ "/state/debug/enabled"

/-- `src/remote/mqtt_listener.rs` `handle_mqtt_message`, restricted to its
shared-state effect and its `Option<i32>` return (the republish payloads it
sends carry the returned value; the final dynamic custom-control arm sends
an external OSC message and republishes, but never writes the shared
state). -/
def handle_mqtt_message (cfg : TransposeConfig) (topics : MqttTopics)
    (st : AppState) (topic payload : String) : AppState × Option Int :=
  if topic = topics.transposeSet then
    match parse_transpose_payload payload with
    | some value =>
      ((set_transpose_semitones cfg value st).1, some (set_transpose_semitones cfg value st).2)
    | none => (st, none)
  else if topic = topics.transposeUp then
    if parse_boolean_payload payload then
      ((set_transpose_semitones cfg (st.transpose + 1) st).1,
       some (set_transpose_semitones cfg (st.transpose + 1) st).2)
    else (st, none)
  else if topic = topics.transposeDown then
    if parse_boolean_payload payload then
      ((set_transpose_semitones cfg (st.transpose - 1) st).1,
       some (set_transpose_semitones cfg (st.transpose - 1) st).2)
    else (st, none)
  else if topic = topics.oscSendingEnabledSet then
    ({ st with oscSendingEnabled := parse_boolean_payload payload }, none)
  else if topic = topics.oscSendOriginalSet then
    ({ st with oscSendOriginal := parse_boolean_payload payload }, none)
  else if topic = topics.debugEnabledSet then
    ({ st with debugEnabled := parse_boolean_payload payload }, none)
  else (st, none)

/-- A state transition either leaves the stored transpose offset untouched
or stores a value produced by the single clamp. -/
def TransposePreserved (cfg : TransposeConfig) (st st2 : AppState) : Prop :=
  st2.transpose = st.transpose ∨ ∃ v, st2.transpose = rustClamp v cfg.min cfg.max

theorem transposePreserved_trans (cfg : TransposeConfig) (st st2 st3 : AppState)
    (h1 : TransposePreserved cfg st st2) (h2 : TransposePreserved cfg st2 st3) :
    TransposePreserved cfg st st3 := by
  rcases h2 with h2 | ⟨v, h2⟩
  · rcases h1 with h1 | ⟨v, h1⟩
    · exact Or.inl (h2.trans h1)
    · exact Or.inr ⟨v, h2.trans h1⟩
  · exact Or.inr ⟨v, h2⟩

theorem stdinTail_preserves (cfg : TransposeConfig) (st : AppState) (cmd : String) :
    TransposePreserved cfg st (stdinTail cfg st cmd).1 := by
  unfold stdinTail
  split_ifs
  · exact Or.inl rfl
  · exact Or.inl rfl
  · exact Or.inl rfl
  · split
    · exact Or.inr ⟨_, rfl⟩
    · exact Or.inl rfl

theorem stdinOscOriginalArg_preserves (cfg : TransposeConfig) (st : AppState) (cmd : String) :
    TransposePreserved cfg st (stdinOscOriginalArg cfg st cmd).1 := by
  have ht := stdinTail_preserves cfg st cmd
  unfold stdinOscOriginalArg
  simp only []
  split
  · split_ifs <;> first | exact Or.inl rfl | exact ht
  · exact ht

theorem stdin_handle_line_preserves (cfg : TransposeConfig) (st : AppState) (line : String) :
    TransposePreserved cfg st (stdin_handle_line cfg st line).1 := by
  have ha := stdinOscOriginalArg_preserves cfg st (rustTrim line)
  have ht := stdinTail_preserves cfg st (rustTrim line)
  unfold stdin_handle_line
  simp only []
  split_ifs <;> first | exact Or.inl rfl | exact ha | exact ht

theorem handle_message_preserves (cfg : TransposeConfig) (paths : OscConfigPaths)
    (st : AppState) (msg : OscMessage) :
    TransposePreserved cfg st (handle_message cfg paths st msg) := by
  unfold handle_message
  split_ifs
  · split
    · split
      · exact Or.inr ⟨_, rfl⟩
      · exact Or.inl rfl
    · exact Or.inl rfl
  · split
    · split_ifs
      · exact Or.inr ⟨_, rfl⟩
      · exact Or.inl rfl
    · exact Or.inl rfl
  · split
    · split_ifs
      · exact Or.inr ⟨_, rfl⟩
      · exact Or.inl rfl
    · exact Or.inl rfl
  · exact Or.inl rfl

mutual
theorem handle_packet_preserves (cfg : TransposeConfig) (paths : OscConfigPaths)
    (p : OscPacket) (st : AppState) :
    TransposePreserved cfg st (handle_packet cfg paths p st) :=
  match p with
  | .message msg => handle_message_preserves cfg paths st msg
  | .bundle content => handlePacketList_preserves cfg paths content st

theorem handlePacketList_preserves (cfg : TransposeConfig) (paths : OscConfigPaths)
    (ps : List OscPacket) (st : AppState) :
    TransposePreserved cfg st (handlePacketList cfg paths ps st) :=
  match ps with
  | [] => Or.inl rfl
  | p :: rest =>
    transposePreserved_trans cfg st (handle_packet cfg paths p st)
      (handlePacketList cfg paths rest (handle_packet cfg paths p st))
      (handle_packet_preserves cfg paths p st)
      (handlePacketList_preserves cfg paths rest (handle_packet cfg paths p st))
end

theorem handle_mqtt_message_preserves (cfg : TransposeConfig) (topics : MqttTopics)
    (st : AppState) (topic payload : String) :
    TransposePreserved cfg st (handle_mqtt_message cfg topics st topic payload).1 := by
  unfold handle_mqtt_message
  split_ifs
  · split
    · exact Or.inr ⟨_, rfl⟩
    · exact Or.inl rfl
  · exact Or.inr ⟨_, rfl⟩
  · exact Or.inl rfl
  · exact Or.inr ⟨_, rfl⟩
  · exact Or.inl rfl
  · exact Or.inl rfl
  · exact Or.inl rfl
  · exact Or.inl rfl
  · exact Or.inl rfl

/-- One write by any of the three live control surfaces: a stdin line
(`general/stdin_handler.rs`), an inbound OSC packet
(`remote/osc_listener.rs`, bundles included), or an inbound MQTT message
(`remote/mqtt_listener.rs`). -/
inductive ControlSurfaceWrite (cfg : TransposeConfig) (paths : OscConfigPaths)
    (topics : MqttTopics) : AppState → AppState → Prop where
  | stdinWrite (st : AppState) (line : String) :
      ControlSurfaceWrite cfg paths topics st (stdin_handle_line cfg st line).1
  | oscWrite (st : AppState) (p : OscPacket) :
      ControlSurfaceWrite cfg paths topics st (handle_packet cfg paths p st)
  | mqttWrite (st : AppState) (topic payload : String) :
      ControlSurfaceWrite cfg paths topics st (handle_mqtt_message cfg topics st topic payload).1

/-- States reachable from the startup state through control-surface writes. -/
inductive ReachableState (cfg : TransposeConfig) (paths : OscConfigPaths)
    (topics : MqttTopics) (init : AppState) : AppState → Prop where
  | start : ReachableState cfg paths topics init init
  | step {st st2 : AppState} : ReachableState cfg paths topics init st →
      ControlSurfaceWrite cfg paths topics st st2 →
      ReachableState cfg paths topics init st2

/-- **C3.** Every write path to the transpose offset — command-line
listener, control-protocol listener set/increment/decrement, broker-bridge
set/increment/decrement — passes through the single clamp-and-store setter:
each write either leaves the offset untouched or stores the setter's clamp
of some value, and hence, starting from an in-range initial offset (`0`
under the spec's configured bounds), every reachable state keeps the offset
within `[min, max]`, so no reader ever observes an out-of-range value. -/
theorem transpose_range_invariant (cfg : TransposeConfig) (paths : OscConfigPaths)
    (topics : MqttTopics) (init : AppState) (h : cfg.min ≤ cfg.max)
    (hinit : cfg.min ≤ init.transpose ∧ init.transpose ≤ cfg.max) :
    (∀ st st2, ControlSurfaceWrite cfg paths topics st st2 →
        st2.transpose = st.transpose
          ∨ ∃ v, st2.transpose = (set_transpose_semitones cfg v st).2)
      ∧ (∀ st, ReachableState cfg paths topics init st →
          cfg.min ≤ st.transpose ∧ st.transpose ≤ cfg.max) := by
  have hwrite : ∀ st st2, ControlSurfaceWrite cfg paths topics st st2 →
      TransposePreserved cfg st st2 := by
    intro st st2 hw
    cases hw with
    | stdinWrite line => exact stdin_handle_line_preserves cfg st line
    | oscWrite p => exact handle_packet_preserves cfg paths p st
    | mqttWrite topic payload => exact handle_mqtt_message_preserves cfg topics st topic payload
  constructor
  · intro st st2 hw
    exact hwrite st st2 hw
  · intro st hr
    induction hr with
    | start => exact hinit
    | step hr hw ih =>
      rcases hwrite _ _ hw with hsame | ⟨v, hclamp⟩
      · rw [hsame]
        exact ih
      · rw [hclamp]
        exact rustClamp_mem v cfg.min cfg.max h

theorem transpose_range_invariant_witness :
    ((-24 : Int) ≤ 24)
      ∧ ((-24 : Int) ≤ (0 : Int) ∧ (0 : Int) ≤ 24)
      ∧ ((∀ st st2, ControlSurfaceWrite ⟨-24, 24⟩
              ⟨"/transpose", "/transposeUp", "/transposeDown"⟩
              (MqttTopics.ofBase "midi_transposer") st st2 →
            st2.transpose = st.transpose
              ∨ ∃ v, st2.transpose = (set_transpose_semitones ⟨-24, 24⟩ v st).2)
        ∧ (∀ st, ReachableState ⟨-24, 24⟩ ⟨"/transpose", "/transposeUp", "/transposeDown"⟩
              (MqttTopics.ofBase "midi_transposer") ⟨0, false, false, false, true, true⟩ st →
            (-24 : Int) ≤ st.transpose ∧ st.transpose ≤ 24)) :=
  ⟨by decide, ⟨by decide, by decide⟩,
   transpose_range_invariant ⟨-24, 24⟩ ⟨"/transpose", "/transposeUp", "/transposeDown"⟩
     (MqttTopics.ofBase "midi_transposer") ⟨0, false, false, false, true, true⟩
     (by decide) ⟨by decide, by decide⟩⟩
